import Mathlib

/-!
Verification of the img2p6screen3 converter (src/img2p6screen3.c).

The program converts a decoded truecolor RGB image into the VRAM bitmap
layout of the PC-6001 SCREEN 3 (4-color, mode 3) or SCREEN 4 (monochrome,
mode 4) graphics modes.  This file gives a shallow embedding of the
pixel-quantization and bit-packing core and of the driver checks, and
proves the specified properties about it.

Machine integers are modelled as Nat (with Int for the signed differences
inside the distance computation, exactly as the C code computes them with
int arithmetic).  The decoded image buffer is a total function
Nat → Fin 256, mirroring the flat uint8_t buffer returned by stbi_load:
every read of img[i] yields a value < 256.  Reads the C program performs
inside the allocated buffer agree with this model; reads past the
allocated buffer (which the C program does perform for some configured
widths, see the screen3/screen4 packing theorems) are undefined behavior
in C but total in the model.
-/

/-- RGB triple, one byte per channel (palrgb_t in the source). -/
structure palrgb_t where
  r : Nat
  g : Nat
  b : Nat
deriving DecidableEq

/-- A 4-entry palette (p6palette_t in the source).  The source stores
colors[4]; we model the array as a total function on Nat, read only at
indices 0..3. -/
structure p6palette_t where
  colors : Nat → palrgb_t

/-- Palette selected by color,,1 : green, yellow, blue, red
(p6palette[0] in the source). -/
def p6paletteA : p6palette_t :=
  ⟨fun i =>
    match i with
    | 0 => ⟨0, 255, 0⟩
    | 1 => ⟨255, 255, 0⟩
    | 2 => ⟨0, 0, 255⟩
    | _ => ⟨255, 0, 0⟩⟩

/-- Palette selected by color,,2 : white, cyan, magenta, orange
(p6palette[1] in the source). -/
def p6paletteB : p6palette_t :=
  ⟨fun i =>
    match i with
    | 0 => ⟨255, 255, 255⟩
    | 1 => ⟨0, 255, 255⟩
    | 2 => ⟨255, 0, 255⟩
    | _ => ⟨255, 128, 0⟩⟩

/-- The two-element palette array p6palette[2]; index 0 is palette A,
index 1 (or anything else, never reached after option validation) is
palette B. -/
def p6palette (c : Nat) : p6palette_t :=
  if c = 0 then p6paletteA else p6paletteB

/-- Squared RGB distance as computed inside nearest_color:
dr = (int)r - (int)palette entry, dist = dr*dr + dg*dg + db*db computed
in int arithmetic, then converted to unsigned int.  For 8-bit inputs the
sum is at most 3*255*255 = 195075, so no overflow occurs and the
int→unsigned conversion is the identity, i.e. Int.toNat. -/
def dist2 (p : palrgb_t) (r g b : Nat) : Nat :=
  (((r : Int) - (p.r : Int)) * ((r : Int) - (p.r : Int)) +
   ((g : Int) - (p.g : Int)) * ((g : Int) - (p.g : Int)) +
   ((b : Int) - (p.b : Int)) * ((b : Int) - (p.b : Int))).toNat

/-- One iteration of the loop in nearest_color: acc is the pair
(min_dist, index); the comparison is strict, so an equal distance never
displaces the running minimum. -/
def ncstep (palette : p6palette_t) (r g b : Nat) (acc : Nat × Nat) (i : Nat) :
    Nat × Nat :=
  if dist2 (palette.colors i) r g b < acc.1 then (dist2 (palette.colors i) r g b, i)
  else acc

/-- nearest_color from the source: min_dist starts at UINT_MAX
(4294967295 on the 32-bit unsigned int of the target platforms), index
starts at 0, and the loop scans i = 0..3. -/
def nearest_color (palette : p6palette_t) (r g b : Nat) : Nat :=
  ((List.range 4).foldl (ncstep palette r g b) (4294967295, 0)).2

/-- rgb_to_gray from the source: fixed-point luma, truncating integer
division. -/
def rgb_to_gray (r g b : Nat) : Nat :=
  (299 * r + 587 * g + 114 * b) / 1000

/-- A decoded image: the flat RGB buffer img returned by stbi_load
(row-major, 3 bytes per pixel, top-to-bottom) together with its
dimensions.  The buffer is modelled as a total function on byte index. -/
structure Image where
  width : Nat
  height : Nat
  data : Nat → Fin 256

/-- Pixel (x, y) of the row-major RGB buffer, at the byte offsets
(y*width + x)*3 + 0/1/2 used by main. -/
def srcPixel (img : Image) (x y : Nat) : palrgb_t :=
  ⟨(img.data ((y * img.width + x) * 3)).val,
   (img.data ((y * img.width + x) * 3 + 1)).val,
   (img.data ((y * img.width + x) * 3 + 2)).val⟩

/-- The merged (averaged) color for hardware pixel j of row y in mode 3:
x = j*2, idx1 = (y*width + x)*3, idx2 = (y*width + x + 1)*3, and each
channel is (img[idx1+c] + img[idx2+c]) / 2 in int arithmetic (sum of two
bytes, at most 510, so the store into uint8_t keeps the value). -/
def mergedPixel (img : Image) (y j : Nat) : palrgb_t :=
  ⟨((img.data ((y * img.width + j * 2) * 3)).val +
    (img.data ((y * img.width + j * 2 + 1) * 3)).val) / 2,
   ((img.data ((y * img.width + j * 2) * 3 + 1)).val +
    (img.data ((y * img.width + j * 2 + 1) * 3 + 1)).val) / 2,
   ((img.data ((y * img.width + j * 2) * 3 + 2)).val +
    (img.data ((y * img.width + j * 2 + 1) * 3 + 2)).val) / 2⟩

/-- Row stride in mode 3: img_stride = ((img_xsize / 2) + 3) / 4. -/
def stride3 (w : Nat) : Nat :=
  ((w / 2) + 3) / 4

/-- Row stride in mode 4: img_stride = (img_xsize + 7) / 8. -/
def stride4 (w : Nat) : Nat :=
  (w + 7) / 8

/-- The byte written for row y, byte column x_byte in mode 3: the inner
loop ORs (color & 0x03) << ((3-i)*2) into out_byte for i = 0..3, where
color is the nearest palette index of the merged pixel x_byte*4+i.
All four contributions fit in 8 bits, so the uint8_t out_byte keeps the
ORed value. -/
def screen3Byte (pal : p6palette_t) (img : Image) (y xb : Nat) : Nat :=
  (List.range 4).foldl (fun out_byte i =>
    out_byte |||
      ((nearest_color pal (mergedPixel img y (xb * 4 + i)).r
          (mergedPixel img y (xb * 4 + i)).g
          (mergedPixel img y (xb * 4 + i)).b &&& 3) <<< ((3 - i) * 2))) 0

/-- The bytes written for row y in mode 3, in the order of the x_byte
loop. -/
def screen3Row (pal : p6palette_t) (img : Image) (y : Nat) : List Nat :=
  (List.range (stride3 img.width)).map (screen3Byte pal img y)

/-- The whole mode-3 output stream: rows top to bottom, bytes left to
right, concatenated with no separators and no header. -/
def screen3Out (pal : p6palette_t) (img : Image) : List Nat :=
  ((List.range img.height).map (screen3Row pal img)).flatten

/-- One iteration of the inner loop of the mode-4 packer: pixel
x = x_byte*8 + bit is converted to gray (uint8_t gray = rgb_to_gray(r,g,b),
hence the % 256 of the store) and 0x80 >> bit is ORed in when
gray > 127. -/
def s4step (img : Image) (y xb : Nat) (out_byte bit : Nat) : Nat :=
  if rgb_to_gray (img.data ((y * img.width + (xb * 8 + bit)) * 3)).val
       (img.data ((y * img.width + (xb * 8 + bit)) * 3 + 1)).val
       (img.data ((y * img.width + (xb * 8 + bit)) * 3 + 2)).val % 256 > 127 then
    out_byte ||| (128 >>> bit)
  else out_byte

/-- The byte written for row y, byte column x_byte in mode 4: the inner
loop runs bit = 0..7 over out_byte starting at 0. -/
def screen4Byte (img : Image) (y xb : Nat) : Nat :=
  (List.range 8).foldl (s4step img y xb) 0

/-- The bytes written for row y in mode 4. -/
def screen4Row (img : Image) (y : Nat) : List Nat :=
  (List.range (stride4 img.width)).map (screen4Byte img y)

/-- The whole mode-4 output stream. -/
def screen4Out (img : Image) : List Nat :=
  ((List.range img.height).map (screen4Row img)).flatten

/-- The conversion driver, modelling main after option parsing and
decoding: first the dimension check (which in the source happens before
the output file is even opened), then the mode dispatch.  The error value
carries (expected width, expected height, actual width, actual height),
the data printed by the dimension error message.  After getopt
validation mode is 3 or 4; the final branch is unreachable there. -/
def convert (mode color_type img_xsize img_ysize : Nat) (img : Image) :
    Except (Nat × Nat × Nat × Nat) (List Nat) :=
  if img.width ≠ img_xsize ∨ img.height ≠ img_ysize then
    Except.error (img_xsize, img_ysize, img.width, img.height)
  else if mode = 3 then
    Except.ok (screen3Out (p6palette (color_type - 1)) img)
  else if mode = 4 then
    Except.ok (screen4Out img)
  else
    Except.ok []

/-- The 2-bit code packed for hardware pixel j of row y: the nearest
palette index of the merged (averaged) pixel. -/
def slotColor (pal : p6palette_t) (img : Image) (y j : Nat) : Nat :=
  nearest_color pal (mergedPixel img y j).r (mergedPixel img y j).g
    (mergedPixel img y j).b

/-- The luma computed for pixel (x, y), before the uint8_t store. -/
def grayAt (img : Image) (y x : Nat) : Nat :=
  rgb_to_gray (img.data ((y * img.width + x) * 3)).val
    (img.data ((y * img.width + x) * 3 + 1)).val
    (img.data ((y * img.width + x) * 3 + 2)).val

/-- Test image: 8×1, every byte 127: every pixel has luma exactly 127. -/
def img127 : Image :=
  ⟨8, 1, fun _ => 127⟩

/-- Test image: 256×192, left half (columns 0..127) pure green (0,255,0),
right half (columns 128..255) pure red (255,0,0). -/
def halfGreenRed : Image :=
  ⟨256, 192, fun idx =>
    if (idx / 3) % 256 < 128 then (if idx % 3 = 1 then 255 else 0)
    else (if idx % 3 = 0 then 255 else 0)⟩

/-- Test image: 10×2, row 0 (flat pixels 0..9) pure green, row 1 (flat
pixels 10..19) pure red.  The merged width 5 is not a multiple of 4. -/
def img10x2 : Image :=
  ⟨10, 2, fun idx =>
    if idx / 3 < 10 then (if idx % 3 = 1 then 255 else 0)
    else (if idx % 3 = 0 then 255 else 0)⟩

/-- Test image: 4×2, row 0 (flat pixels 0..3) black, row 1 white.  The
width 4 is not a multiple of 8. -/
def img4x2 : Image :=
  ⟨4, 2, fun idx => if idx / 3 < 4 then 0 else 255⟩

/-- Test image: 100×100, all black; used against a 256×192 expected
working size. -/
def img100 : Image :=
  ⟨100, 100, fun _ => 0⟩

/-! ### Properties of nearest_color -/

/-- Unfolding the four loop iterations of nearest_color. -/
lemma nc_unfold (pal : p6palette_t) (r g b : Nat) :
    nearest_color pal r g b =
      (ncstep pal r g b
        (ncstep pal r g b
          (ncstep pal r g b
            (ncstep pal r g b (4294967295, 0) 0) 1) 2) 3).2 := rfl

/-- The index returned by nearest_color is always in [0,3], with no
hypothesis at all: index only ever changes to a loop counter value. -/
lemma nearest_color_lt_four (pal : p6palette_t) (r g b : Nat) :
    nearest_color pal r g b < 4 := by
  rw [nc_unfold]
  simp only [ncstep]
  split_ifs <;> simp

/-- The returned index minimizes dist2 over all four entries, and every
strictly smaller index has strictly larger distance (so on exact ties the
lowest index wins), provided all four distances are below the initial
min_dist value UINT_MAX. -/
lemma nearest_color_spec (pal : p6palette_t) (r g b : Nat)
    (hd : ∀ i, i < 4 → dist2 (pal.colors i) r g b < 4294967295) :
    nearest_color pal r g b < 4 ∧
    (∀ j, j < 4 →
      dist2 (pal.colors (nearest_color pal r g b)) r g b ≤
        dist2 (pal.colors j) r g b) ∧
    (∀ j, j < nearest_color pal r g b →
      dist2 (pal.colors (nearest_color pal r g b)) r g b <
        dist2 (pal.colors j) r g b) := by
  have h0 := hd 0 (by omega)
  have h1 := hd 1 (by omega)
  have h2 := hd 2 (by omega)
  have h3 := hd 3 (by omega)
  rw [nc_unfold]
  simp only [ncstep]
  split_ifs <;>
    simp only [Prod.fst, Prod.snd] at * <;>
    refine ⟨by omega, fun j hj => ?_, fun j hj => ?_⟩ <;>
    interval_cases j <;> omega

/-- Bound on a squared channel difference for 8-bit values. -/
lemma sq_diff_le (a c : Nat) (ha : a ≤ 255) (hc : c ≤ 255) :
    ((a : Int) - c) * ((a : Int) - c) ≤ 65025 := by
  have hb1 : (a : Int) ≤ 255 := by exact_mod_cast ha
  have hb2 : (c : Int) ≤ 255 := by exact_mod_cast hc
  have hb3 : (0 : Int) ≤ (a : Int) := Int.natCast_nonneg a
  have hb4 : (0 : Int) ≤ (c : Int) := Int.natCast_nonneg c
  nlinarith [mul_nonneg (by omega : (0:Int) ≤ 255 - ((a:Int) - c))
    (by omega : (0:Int) ≤ 255 + ((a:Int) - c))]

/-- For 8-bit channels and 8-bit palette entries the squared distance is
at most 3·255² = 195075, so the int computation never overflows and every
distance is below UINT_MAX. -/
lemma dist2_le (p : palrgb_t) (r g b : Nat)
    (hp1 : p.r ≤ 255) (hp2 : p.g ≤ 255) (hp3 : p.b ≤ 255)
    (hr : r ≤ 255) (hg : g ≤ 255) (hb : b ≤ 255) :
    dist2 p r g b ≤ 195075 := by
  unfold dist2
  have e1 := sq_diff_le r p.r hr hp1
  have e2 := sq_diff_le g p.g hg hp2
  have e3 := sq_diff_le b p.b hb hp3
  rw [Int.toNat_le]
  push_cast
  linarith

/-- Every entry of either fixed palette has 8-bit channels. -/
lemma p6palette_colors_le (c i : Nat) :
    ((p6palette c).colors i).r ≤ 255 ∧ ((p6palette c).colors i).g ≤ 255 ∧
      ((p6palette c).colors i).b ≤ 255 := by
  unfold p6palette
  split <;> rcases i with _ | _ | _ | i <;> simp [p6paletteA, p6paletteB]

/-- C1: for every 8-bit pixel and each palette of the fixed table,
nearest_color returns an index in [0,3] whose squared Euclidean RGB
distance is minimal, and every strictly lower index is at strictly
larger distance (hence on exact ties the lowest index is returned). -/
theorem nearest_color_correct (c : Nat) (r g b : Nat)
    (hr : r ≤ 255) (hg : g ≤ 255) (hb : b ≤ 255) :
    nearest_color (p6palette c) r g b < 4 ∧
    (∀ j, j < 4 →
      dist2 ((p6palette c).colors (nearest_color (p6palette c) r g b)) r g b ≤
        dist2 ((p6palette c).colors j) r g b) ∧
    (∀ j, j < nearest_color (p6palette c) r g b →
      dist2 ((p6palette c).colors (nearest_color (p6palette c) r g b)) r g b <
        dist2 ((p6palette c).colors j) r g b) := by
  refine nearest_color_spec (p6palette c) r g b (fun i hi => ?_)
  have hp := p6palette_colors_le c i
  have := dist2_le ((p6palette c).colors i) r g b hp.1 hp.2.1 hp.2.2 hr hg hb
  omega

/-- Witness for C1 at the concrete pixel (10,10,10) and palette A. -/
theorem nearest_color_correct_witness :
    (10 ≤ 255) ∧
    (nearest_color (p6palette 0) 10 10 10 < 4 ∧
    (∀ j, j < 4 →
      dist2 ((p6palette 0).colors (nearest_color (p6palette 0) 10 10 10)) 10 10 10 ≤
        dist2 ((p6palette 0).colors j) 10 10 10) ∧
    (∀ j, j < nearest_color (p6palette 0) 10 10 10 →
      dist2 ((p6palette 0).colors (nearest_color (p6palette 0) 10 10 10)) 10 10 10 <
        dist2 ((p6palette 0).colors j) 10 10 10)) :=
  ⟨by decide, nearest_color_correct 0 10 10 10 (by decide) (by decide) (by decide)⟩

/-! ### Structure of the mode-3 packed byte -/

/-- Unfolding the four inner-loop iterations of the mode-3 packer. -/
lemma screen3Byte_unfold (pal : p6palette_t) (img : Image) (y xb : Nat) :
    screen3Byte pal img y xb =
      (((0 ||| ((slotColor pal img y (xb * 4) &&& 3) <<< 6)) |||
        ((slotColor pal img y (xb * 4 + 1) &&& 3) <<< 4)) |||
        ((slotColor pal img y (xb * 4 + 2) &&& 3) <<< 2)) |||
        (slotColor pal img y (xb * 4 + 3) &&& 3) := rfl

/-- For 2-bit codes the OR-accumulation of the four shifted fields is
plain positional arithmetic. -/
lemma or4_eq_sum (a b c d : Nat) (ha : a < 4) (hb : b < 4) (hc : c < 4)
    (hd : d < 4) :
    (((0 ||| ((a &&& 3) <<< 6)) ||| ((b &&& 3) <<< 4)) |||
      ((c &&& 3) <<< 2)) ||| (d &&& 3) = a * 64 + b * 16 + c * 4 + d := by
  interval_cases a <;> interval_cases b <;> interval_cases c <;>
    interval_cases d <;> decide

/-- The mode-3 byte in positional form. -/
lemma screen3Byte_eq_sum (pal : p6palette_t) (img : Image) (y xb : Nat) :
    screen3Byte pal img y xb =
      slotColor pal img y (xb * 4) * 64 + slotColor pal img y (xb * 4 + 1) * 16 +
      slotColor pal img y (xb * 4 + 2) * 4 + slotColor pal img y (xb * 4 + 3) := by
  rw [screen3Byte_unfold]
  exact or4_eq_sum _ _ _ _ (nearest_color_lt_four _ _ _ _)
    (nearest_color_lt_four _ _ _ _) (nearest_color_lt_four _ _ _ _)
    (nearest_color_lt_four _ _ _ _)

/-- Masking with 3 is reduction mod 4. -/
lemma and3_eq_mod (n : Nat) : n &&& 3 = n % 4 := by
  have h := Nat.and_pow_two_sub_one_eq_mod n 2
  norm_num at h
  exact h

/-- The merged pixel is the channel-wise floor average of the two
adjacent source pixels of the same row (when the reads stay inside the
row; the equation is about the flat buffer and holds for every index). -/
lemma mergedPixel_eq (img : Image) (y j : Nat) :
    mergedPixel img y j =
      ⟨((srcPixel img (2 * j) y).r + (srcPixel img (2 * j + 1) y).r) / 2,
       ((srcPixel img (2 * j) y).g + (srcPixel img (2 * j + 1) y).g) / 2,
       ((srcPixel img (2 * j) y).b + (srcPixel img (2 * j + 1) y).b) / 2⟩ := by
  unfold mergedPixel srcPixel
  have e1 : j * 2 = 2 * j := by ring
  rw [e1]
  have e2 : y * img.width + 2 * j + 1 = y * img.width + (2 * j + 1) := by omega
  rw [e2]

/-- C2: in mode 3 the 2-bit field packed for hardware pixel
j = x_byte*4 + i is the nearest palette index of the channel-wise
floor((a+b)/2) average of source pixels (2j, y) and (2j+1, y): the
averaging happens in RGB space before the single nearest-color match. -/
theorem screen3_merge_avg (pal : p6palette_t) (img : Image) (y xb i : Nat)
    (hi : i < 4) (hx : 2 * (xb * 4 + i) + 1 < img.width) :
    (screen3Byte pal img y xb >>> ((3 - i) * 2)) &&& 3 =
      nearest_color pal
        (((srcPixel img (2 * (xb * 4 + i)) y).r +
          (srcPixel img (2 * (xb * 4 + i) + 1) y).r) / 2)
        (((srcPixel img (2 * (xb * 4 + i)) y).g +
          (srcPixel img (2 * (xb * 4 + i) + 1) y).g) / 2)
        (((srcPixel img (2 * (xb * 4 + i)) y).b +
          (srcPixel img (2 * (xb * 4 + i) + 1) y).b) / 2) := by
  have key : slotColor pal img y (xb * 4 + i) =
      nearest_color pal
        (((srcPixel img (2 * (xb * 4 + i)) y).r +
          (srcPixel img (2 * (xb * 4 + i) + 1) y).r) / 2)
        (((srcPixel img (2 * (xb * 4 + i)) y).g +
          (srcPixel img (2 * (xb * 4 + i) + 1) y).g) / 2)
        (((srcPixel img (2 * (xb * 4 + i)) y).b +
          (srcPixel img (2 * (xb * 4 + i) + 1) y).b) / 2) := by
    unfold slotColor
    rw [mergedPixel_eq]
  rw [← key]
  have hs := screen3Byte_eq_sum pal img y xb
  have h0 := nearest_color_lt_four pal (mergedPixel img y (xb * 4)).r
    (mergedPixel img y (xb * 4)).g (mergedPixel img y (xb * 4)).b
  have h1 := nearest_color_lt_four pal (mergedPixel img y (xb * 4 + 1)).r
    (mergedPixel img y (xb * 4 + 1)).g (mergedPixel img y (xb * 4 + 1)).b
  have h2 := nearest_color_lt_four pal (mergedPixel img y (xb * 4 + 2)).r
    (mergedPixel img y (xb * 4 + 2)).g (mergedPixel img y (xb * 4 + 2)).b
  have h3 := nearest_color_lt_four pal (mergedPixel img y (xb * 4 + 3)).r
    (mergedPixel img y (xb * 4 + 3)).g (mergedPixel img y (xb * 4 + 3)).b
  simp only [slotColor] at hs ⊢
  interval_cases i <;>
    simp only [Nat.add_zero, Nat.shiftRight_eq_div_pow, and3_eq_mod] at hs ⊢ <;>
    rw [hs] <;> norm_num <;> omega

/-! ### Byte order of the mode-3 stream -/

/-- Indexing a concatenation of equal-length rows. -/
lemma flatten_getElem_uniform (L : List (List Nat)) (s : Nat)
    (h : ∀ l, l ∈ L → l.length = s) (i j : Nat) (hi : i < L.length)
    (hj : j < s) :
    L.flatten[i * s + j]? = L[i]?.bind fun row => row[j]? := by
  induction L generalizing i with
  | nil => simp at hi
  | cons x xs ih =>
    have hx : x.length = s := h x (by simp)
    rcases i with _ | i
    · rw [List.flatten_cons, Nat.zero_mul, Nat.zero_add,
        List.getElem?_append_left (by omega)]
      simp
    · rw [List.flatten_cons, List.getElem?_append_right (by
        have : s ≤ (i + 1) * s + j := by
          calc s ≤ 1 * s + j := by omega
          _ ≤ (i + 1) * s + j := by
            have : 1 * s ≤ (i + 1) * s := Nat.mul_le_mul_right s (by omega)
            omega
        omega)]
      have e : (i + 1) * s + j - x.length = i * s + j := by
        have : (i + 1) * s = i * s + s := by ring
        omega
      rw [e, ih (fun l hl => h l (by simp [hl])) i (by simpa using hi)]
      simp

/-- The byte for row y, byte column x_byte sits at stream offset
y * stride + x_byte of the mode-3 output. -/
lemma screen3Out_getElem (pal : p6palette_t) (img : Image) (y xb : Nat)
    (hy : y < img.height) (hxb : xb < stride3 img.width) :
    (screen3Out pal img)[y * stride3 img.width + xb]? =
      some (screen3Byte pal img y xb) := by
  unfold screen3Out
  rw [flatten_getElem_uniform _ (stride3 img.width)
    (fun l hl => by
      simp only [List.mem_map] at hl
      obtain ⟨a, _, rfl⟩ := hl
      simp [screen3Row])
    y xb (by simpa using hy) hxb]
  rw [List.getElem?_map, List.getElem?_range hy]
  simp [screen3Row, List.getElem?_map, List.getElem?_range hxb]

/-- C3: for a group of 4 merged pixels fully inside row y, the emitted
byte is the OR of the four 2-bit nearest-color codes with slot i shifted
left by (3-i)*2 bits (equivalently positional base-4 packing), the
leftmost merged pixel occupying the most-significant two bits, and the
byte sits at stream offset y*stride + x_byte (rows top to bottom, groups
left to right). -/
theorem screen3_byte_layout (pal : p6palette_t) (img : Image) (y xb : Nat)
    (hy : y < img.height) (hg : (xb * 4 + 3) * 2 + 1 < img.width) :
    screen3Byte pal img y xb =
      (((slotColor pal img y (xb * 4) <<< 6) |||
        (slotColor pal img y (xb * 4 + 1) <<< 4)) |||
        (slotColor pal img y (xb * 4 + 2) <<< 2)) |||
        slotColor pal img y (xb * 4 + 3) ∧
    screen3Byte pal img y xb =
      slotColor pal img y (xb * 4) * 64 + slotColor pal img y (xb * 4 + 1) * 16 +
      slotColor pal img y (xb * 4 + 2) * 4 + slotColor pal img y (xb * 4 + 3) ∧
    screen3Byte pal img y xb >>> 6 = slotColor pal img y (xb * 4) ∧
    (screen3Out pal img)[y * stride3 img.width + xb]? =
      some (screen3Byte pal img y xb) := by
  have h0 : slotColor pal img y (xb * 4) < 4 := nearest_color_lt_four _ _ _ _
  have h1 : slotColor pal img y (xb * 4 + 1) < 4 := nearest_color_lt_four _ _ _ _
  have h2 : slotColor pal img y (xb * 4 + 2) < 4 := nearest_color_lt_four _ _ _ _
  have h3 : slotColor pal img y (xb * 4 + 3) < 4 := nearest_color_lt_four _ _ _ _
  have hsum := screen3Byte_eq_sum pal img y xb
  have hor : screen3Byte pal img y xb =
      (((slotColor pal img y (xb * 4) <<< 6) |||
        (slotColor pal img y (xb * 4 + 1) <<< 4)) |||
        (slotColor pal img y (xb * 4 + 2) <<< 2)) |||
        slotColor pal img y (xb * 4 + 3) := by
    rw [screen3Byte_unfold]
    set a := slotColor pal img y (xb * 4)
    set b := slotColor pal img y (xb * 4 + 1)
    set c := slotColor pal img y (xb * 4 + 2)
    set d := slotColor pal img y (xb * 4 + 3)
    interval_cases a <;> interval_cases b <;> interval_cases c <;>
      interval_cases d <;> decide
  refine ⟨hor, hsum, ?_, ?_⟩
  · rw [hsum, Nat.shiftRight_eq_div_pow]
    norm_num
    omega
  · exact screen3Out_getElem pal img y xb hy (by unfold stride3; omega)

/-- Witness for C2 at halfGreenRed, row 0, byte 0, slot 0. -/
theorem screen3_merge_avg_witness :
    (0 < 4 ∧ 2 * (0 * 4 + 0) + 1 < halfGreenRed.width) ∧
    (screen3Byte (p6palette 0) halfGreenRed 0 0 >>> ((3 - 0) * 2)) &&& 3 =
      nearest_color (p6palette 0)
        (((srcPixel halfGreenRed (2 * (0 * 4 + 0)) 0).r +
          (srcPixel halfGreenRed (2 * (0 * 4 + 0) + 1) 0).r) / 2)
        (((srcPixel halfGreenRed (2 * (0 * 4 + 0)) 0).g +
          (srcPixel halfGreenRed (2 * (0 * 4 + 0) + 1) 0).g) / 2)
        (((srcPixel halfGreenRed (2 * (0 * 4 + 0)) 0).b +
          (srcPixel halfGreenRed (2 * (0 * 4 + 0) + 1) 0).b) / 2) :=
  ⟨⟨by decide, by decide⟩,
    screen3_merge_avg (p6palette 0) halfGreenRed 0 0 0 (by decide) (by decide)⟩

/-- Witness for C3 at halfGreenRed, row 0, byte 0. -/
theorem screen3_byte_layout_witness :
    (0 < halfGreenRed.height ∧ (0 * 4 + 3) * 2 + 1 < halfGreenRed.width) ∧
    (screen3Byte (p6palette 0) halfGreenRed 0 0 =
      (((slotColor (p6palette 0) halfGreenRed 0 (0 * 4) <<< 6) |||
        (slotColor (p6palette 0) halfGreenRed 0 (0 * 4 + 1) <<< 4)) |||
        (slotColor (p6palette 0) halfGreenRed 0 (0 * 4 + 2) <<< 2)) |||
        slotColor (p6palette 0) halfGreenRed 0 (0 * 4 + 3) ∧
    screen3Byte (p6palette 0) halfGreenRed 0 0 =
      slotColor (p6palette 0) halfGreenRed 0 (0 * 4) * 64 +
      slotColor (p6palette 0) halfGreenRed 0 (0 * 4 + 1) * 16 +
      slotColor (p6palette 0) halfGreenRed 0 (0 * 4 + 2) * 4 +
      slotColor (p6palette 0) halfGreenRed 0 (0 * 4 + 3) ∧
    screen3Byte (p6palette 0) halfGreenRed 0 0 >>> 6 =
      slotColor (p6palette 0) halfGreenRed 0 (0 * 4) ∧
    (screen3Out (p6palette 0) halfGreenRed)[0 * stride3 halfGreenRed.width + 0]? =
      some (screen3Byte (p6palette 0) halfGreenRed 0 0)) :=
  ⟨⟨by decide, by decide⟩,
    screen3_byte_layout (p6palette 0) halfGreenRed 0 0 (by decide) (by decide)⟩


/-! ### Structure of the mode-4 packed byte -/

/-- rgb_to_gray of 8-bit channels is at most 255. -/
lemma rgb_to_gray_le (r g b : Nat) (hr : r ≤ 255) (hg : g ≤ 255)
    (hb : b ≤ 255) : rgb_to_gray r g b ≤ 255 := by
  unfold rgb_to_gray
  omega

/-- Every luma read from the byte buffer is at most 255. -/
lemma grayAt_le (img : Image) (y x : Nat) : grayAt img y x ≤ 255 := by
  have h1 := (img.data ((y * img.width + x) * 3)).isLt
  have h2 := (img.data ((y * img.width + x) * 3 + 1)).isLt
  have h3 := (img.data ((y * img.width + x) * 3 + 2)).isLt
  exact rgb_to_gray_le _ _ _ (by omega) (by omega) (by omega)

/-- The uint8_t store of the luma keeps its value. -/
lemma grayAt_mod (img : Image) (y x : Nat) :
    grayAt img y x % 256 = grayAt img y x :=
  Nat.mod_eq_of_lt (by have := grayAt_le img y x; omega)

/-- The loop body of the mode-4 packer phrased through grayAt. -/
lemma s4step_eq (img : Image) (y xb ob bit : Nat) :
    s4step img y xb ob bit =
      if grayAt img y (xb * 8 + bit) % 256 > 127 then ob ||| (128 >>> bit)
      else ob := rfl

/-- Unfolding the eight inner-loop iterations of the mode-4 packer. -/
lemma screen4Byte_unfold (img : Image) (y xb : Nat) :
    screen4Byte img y xb =
      s4step img y xb (s4step img y xb (s4step img y xb (s4step img y xb
        (s4step img y xb (s4step img y xb (s4step img y xb
          (s4step img y xb 0 0) 1) 2) 3) 4) 5) 6) 7 := rfl

/-- The mode-4 byte in positional form: each pixel of the group
contributes 2^(7-bit) exactly when its (stored) luma exceeds 127. -/
lemma screen4Byte_eq_sum (img : Image) (y xb : Nat) :
    screen4Byte img y xb =
      (if grayAt img y (xb * 8) % 256 > 127 then 1 else 0) * 128 +
      (if grayAt img y (xb * 8 + 1) % 256 > 127 then 1 else 0) * 64 +
      (if grayAt img y (xb * 8 + 2) % 256 > 127 then 1 else 0) * 32 +
      (if grayAt img y (xb * 8 + 3) % 256 > 127 then 1 else 0) * 16 +
      (if grayAt img y (xb * 8 + 4) % 256 > 127 then 1 else 0) * 8 +
      (if grayAt img y (xb * 8 + 5) % 256 > 127 then 1 else 0) * 4 +
      (if grayAt img y (xb * 8 + 6) % 256 > 127 then 1 else 0) * 2 +
      (if grayAt img y (xb * 8 + 7) % 256 > 127 then 1 else 0) := by
  have e0 : s4step img y xb 0 0 =
      (if grayAt img y (xb * 8) % 256 > 127 then 1 else 0) * 128 := by
    rw [s4step_eq]
    simp only [Nat.add_zero]
    split_ifs <;> decide
  have e1 : s4step img y xb (s4step img y xb 0 0) 1 =
      (if grayAt img y (xb * 8) % 256 > 127 then 1 else 0) * 128 +
      (if grayAt img y (xb * 8 + 1) % 256 > 127 then 1 else 0) * 64 := by
    rw [e0, s4step_eq]
    split_ifs <;> decide
  have e2 : s4step img y xb (s4step img y xb (s4step img y xb 0 0) 1) 2 =
      (if grayAt img y (xb * 8) % 256 > 127 then 1 else 0) * 128 +
      (if grayAt img y (xb * 8 + 1) % 256 > 127 then 1 else 0) * 64 +
      (if grayAt img y (xb * 8 + 2) % 256 > 127 then 1 else 0) * 32 := by
    rw [e1, s4step_eq]
    split_ifs <;> decide
  have e3 : s4step img y xb
        (s4step img y xb (s4step img y xb (s4step img y xb 0 0) 1) 2) 3 =
      (if grayAt img y (xb * 8) % 256 > 127 then 1 else 0) * 128 +
      (if grayAt img y (xb * 8 + 1) % 256 > 127 then 1 else 0) * 64 +
      (if grayAt img y (xb * 8 + 2) % 256 > 127 then 1 else 0) * 32 +
      (if grayAt img y (xb * 8 + 3) % 256 > 127 then 1 else 0) * 16 := by
    rw [e2, s4step_eq]
    split_ifs <;> decide
  have e4 : s4step img y xb (s4step img y xb
        (s4step img y xb (s4step img y xb (s4step img y xb 0 0) 1) 2) 3) 4 =
      (if grayAt img y (xb * 8) % 256 > 127 then 1 else 0) * 128 +
      (if grayAt img y (xb * 8 + 1) % 256 > 127 then 1 else 0) * 64 +
      (if grayAt img y (xb * 8 + 2) % 256 > 127 then 1 else 0) * 32 +
      (if grayAt img y (xb * 8 + 3) % 256 > 127 then 1 else 0) * 16 +
      (if grayAt img y (xb * 8 + 4) % 256 > 127 then 1 else 0) * 8 := by
    rw [e3, s4step_eq]
    split_ifs <;> decide
  have e5 : s4step img y xb (s4step img y xb (s4step img y xb
        (s4step img y xb (s4step img y xb (s4step img y xb 0 0) 1) 2) 3) 4) 5 =
      (if grayAt img y (xb * 8) % 256 > 127 then 1 else 0) * 128 +
      (if grayAt img y (xb * 8 + 1) % 256 > 127 then 1 else 0) * 64 +
      (if grayAt img y (xb * 8 + 2) % 256 > 127 then 1 else 0) * 32 +
      (if grayAt img y (xb * 8 + 3) % 256 > 127 then 1 else 0) * 16 +
      (if grayAt img y (xb * 8 + 4) % 256 > 127 then 1 else 0) * 8 +
      (if grayAt img y (xb * 8 + 5) % 256 > 127 then 1 else 0) * 4 := by
    rw [e4, s4step_eq]
    split_ifs <;> decide
  have e6 : s4step img y xb (s4step img y xb (s4step img y xb (s4step img y xb
        (s4step img y xb (s4step img y xb (s4step img y xb 0 0) 1) 2) 3) 4) 5) 6 =
      (if grayAt img y (xb * 8) % 256 > 127 then 1 else 0) * 128 +
      (if grayAt img y (xb * 8 + 1) % 256 > 127 then 1 else 0) * 64 +
      (if grayAt img y (xb * 8 + 2) % 256 > 127 then 1 else 0) * 32 +
      (if grayAt img y (xb * 8 + 3) % 256 > 127 then 1 else 0) * 16 +
      (if grayAt img y (xb * 8 + 4) % 256 > 127 then 1 else 0) * 8 +
      (if grayAt img y (xb * 8 + 5) % 256 > 127 then 1 else 0) * 4 +
      (if grayAt img y (xb * 8 + 6) % 256 > 127 then 1 else 0) * 2 := by
    rw [e5, s4step_eq]
    split_ifs <;> decide
  rw [screen4Byte_unfold, e6, s4step_eq]
  split_ifs <;> decide

/-- Reading single bits out of an 8-bit positional sum of 0/1 weights. -/
lemma bits8_testBit (c0 c1 c2 c3 c4 c5 c6 c7 : Prop)
    [Decidable c0] [Decidable c1] [Decidable c2] [Decidable c3]
    [Decidable c4] [Decidable c5] [Decidable c6] [Decidable c7] :
    (((if c0 then 1 else 0) * 128 + (if c1 then 1 else 0) * 64 +
      (if c2 then 1 else 0) * 32 + (if c3 then 1 else 0) * 16 +
      (if c4 then 1 else 0) * 8 + (if c5 then 1 else 0) * 4 +
      (if c6 then 1 else 0) * 2 + (if c7 then 1 else 0)).testBit 7 = true ↔ c0) ∧
    (((if c0 then 1 else 0) * 128 + (if c1 then 1 else 0) * 64 +
      (if c2 then 1 else 0) * 32 + (if c3 then 1 else 0) * 16 +
      (if c4 then 1 else 0) * 8 + (if c5 then 1 else 0) * 4 +
      (if c6 then 1 else 0) * 2 + (if c7 then 1 else 0)).testBit 6 = true ↔ c1) ∧
    (((if c0 then 1 else 0) * 128 + (if c1 then 1 else 0) * 64 +
      (if c2 then 1 else 0) * 32 + (if c3 then 1 else 0) * 16 +
      (if c4 then 1 else 0) * 8 + (if c5 then 1 else 0) * 4 +
      (if c6 then 1 else 0) * 2 + (if c7 then 1 else 0)).testBit 5 = true ↔ c2) ∧
    (((if c0 then 1 else 0) * 128 + (if c1 then 1 else 0) * 64 +
      (if c2 then 1 else 0) * 32 + (if c3 then 1 else 0) * 16 +
      (if c4 then 1 else 0) * 8 + (if c5 then 1 else 0) * 4 +
      (if c6 then 1 else 0) * 2 + (if c7 then 1 else 0)).testBit 4 = true ↔ c3) ∧
    (((if c0 then 1 else 0) * 128 + (if c1 then 1 else 0) * 64 +
      (if c2 then 1 else 0) * 32 + (if c3 then 1 else 0) * 16 +
      (if c4 then 1 else 0) * 8 + (if c5 then 1 else 0) * 4 +
      (if c6 then 1 else 0) * 2 + (if c7 then 1 else 0)).testBit 3 = true ↔ c4) ∧
    (((if c0 then 1 else 0) * 128 + (if c1 then 1 else 0) * 64 +
      (if c2 then 1 else 0) * 32 + (if c3 then 1 else 0) * 16 +
      (if c4 then 1 else 0) * 8 + (if c5 then 1 else 0) * 4 +
      (if c6 then 1 else 0) * 2 + (if c7 then 1 else 0)).testBit 2 = true ↔ c5) ∧
    (((if c0 then 1 else 0) * 128 + (if c1 then 1 else 0) * 64 +
      (if c2 then 1 else 0) * 32 + (if c3 then 1 else 0) * 16 +
      (if c4 then 1 else 0) * 8 + (if c5 then 1 else 0) * 4 +
      (if c6 then 1 else 0) * 2 + (if c7 then 1 else 0)).testBit 1 = true ↔ c6) ∧
    (((if c0 then 1 else 0) * 128 + (if c1 then 1 else 0) * 64 +
      (if c2 then 1 else 0) * 32 + (if c3 then 1 else 0) * 16 +
      (if c4 then 1 else 0) * 8 + (if c5 then 1 else 0) * 4 +
      (if c6 then 1 else 0) * 2 + (if c7 then 1 else 0)).testBit 0 = true ↔ c7) := by
  have e0 : (if c0 then 1 else 0) ≤ 1 := by split <;> omega
  have e1 : (if c1 then 1 else 0) ≤ 1 := by split <;> omega
  have e2 : (if c2 then 1 else 0) ≤ 1 := by split <;> omega
  have e3 : (if c3 then 1 else 0) ≤ 1 := by split <;> omega
  have e4 : (if c4 then 1 else 0) ≤ 1 := by split <;> omega
  have e5 : (if c5 then 1 else 0) ≤ 1 := by split <;> omega
  have e6 : (if c6 then 1 else 0) ≤ 1 := by split <;> omega
  have e7 : (if c7 then 1 else 0) ≤ 1 := by split <;> omega
  have f0 : ((if c0 then 1 else 0) = 1) ↔ c0 := by split <;> simp_all
  have f1 : ((if c1 then 1 else 0) = 1) ↔ c1 := by split <;> simp_all
  have f2 : ((if c2 then 1 else 0) = 1) ↔ c2 := by split <;> simp_all
  have f3 : ((if c3 then 1 else 0) = 1) ↔ c3 := by split <;> simp_all
  have f4 : ((if c4 then 1 else 0) = 1) ↔ c4 := by split <;> simp_all
  have f5 : ((if c5 then 1 else 0) = 1) ↔ c5 := by split <;> simp_all
  have f6 : ((if c6 then 1 else 0) = 1) ↔ c6 := by split <;> simp_all
  have f7 : ((if c7 then 1 else 0) = 1) ↔ c7 := by split <;> simp_all
  refine ⟨?_, ?_, ?_, ?_, ?_, ?_, ?_, ?_⟩
  · rw [Nat.testBit_to_div_mod, decide_eq_true_eq]
    conv_rhs => rw [← f0]
    have hp : (2:Nat) ^ 7 = 128 := by norm_num
    rw [hp]
    omega
  · rw [Nat.testBit_to_div_mod, decide_eq_true_eq]
    conv_rhs => rw [← f1]
    have hp : (2:Nat) ^ 6 = 64 := by norm_num
    rw [hp]
    omega
  · rw [Nat.testBit_to_div_mod, decide_eq_true_eq]
    conv_rhs => rw [← f2]
    have hp : (2:Nat) ^ 5 = 32 := by norm_num
    rw [hp]
    omega
  · rw [Nat.testBit_to_div_mod, decide_eq_true_eq]
    conv_rhs => rw [← f3]
    have hp : (2:Nat) ^ 4 = 16 := by norm_num
    rw [hp]
    omega
  · rw [Nat.testBit_to_div_mod, decide_eq_true_eq]
    conv_rhs => rw [← f4]
    have hp : (2:Nat) ^ 3 = 8 := by norm_num
    rw [hp]
    omega
  · rw [Nat.testBit_to_div_mod, decide_eq_true_eq]
    conv_rhs => rw [← f5]
    have hp : (2:Nat) ^ 2 = 4 := by norm_num
    rw [hp]
    omega
  · rw [Nat.testBit_to_div_mod, decide_eq_true_eq]
    conv_rhs => rw [← f6]
    have hp : (2:Nat) ^ 1 = 2 := by norm_num
    rw [hp]
    omega
  · rw [Nat.testBit_to_div_mod, decide_eq_true_eq]
    conv_rhs => rw [← f7]
    have hp : (2:Nat) ^ 0 = 1 := by norm_num
    rw [hp]
    omega

/-- C4: in mode 4 the k-th pixel of a group of 8 (k = 0..7 left to
right) sets bit 7-k of the output byte exactly when its luma
(299r + 587g + 114b)/1000, truncating integer division, is strictly
greater than 127; in particular luma 127 leaves the bit 0 and luma 128
sets it. -/
theorem screen4_bit (img : Image) (y xb k : Nat) (hk : k < 8) :
    ((screen4Byte img y xb).testBit (7 - k) = true ↔
      rgb_to_gray (img.data ((y * img.width + (xb * 8 + k)) * 3)).val
        (img.data ((y * img.width + (xb * 8 + k)) * 3 + 1)).val
        (img.data ((y * img.width + (xb * 8 + k)) * 3 + 2)).val > 127) := by
  have hb := bits8_testBit (grayAt img y (xb * 8) % 256 > 127)
    (grayAt img y (xb * 8 + 1) % 256 > 127)
    (grayAt img y (xb * 8 + 2) % 256 > 127)
    (grayAt img y (xb * 8 + 3) % 256 > 127)
    (grayAt img y (xb * 8 + 4) % 256 > 127)
    (grayAt img y (xb * 8 + 5) % 256 > 127)
    (grayAt img y (xb * 8 + 6) % 256 > 127)
    (grayAt img y (xb * 8 + 7) % 256 > 127)
  rw [screen4Byte_eq_sum]
  have hG : rgb_to_gray (img.data ((y * img.width + (xb * 8 + k)) * 3)).val
      (img.data ((y * img.width + (xb * 8 + k)) * 3 + 1)).val
      (img.data ((y * img.width + (xb * 8 + k)) * 3 + 2)).val =
      grayAt img y (xb * 8 + k) := rfl
  rw [hG, ← grayAt_mod img y (xb * 8 + k)]
  interval_cases k
  · simpa using hb.1
  · simpa using hb.2.1
  · simpa using hb.2.2.1
  · simpa using hb.2.2.2.1
  · simpa using hb.2.2.2.2.1
  · simpa using hb.2.2.2.2.2.1
  · simpa using hb.2.2.2.2.2.2.1
  · simpa using hb.2.2.2.2.2.2.2

/-- Witness for C4 at img127 (luma exactly 127 everywhere), group 0,
pixel 0: the bit stays 0. -/
theorem screen4_bit_witness :
    (0 < 8) ∧
    ((screen4Byte img127 0 0).testBit (7 - 0) = true ↔
      rgb_to_gray (img127.data ((0 * img127.width + (0 * 8 + 0)) * 3)).val
        (img127.data ((0 * img127.width + (0 * 8 + 0)) * 3 + 1)).val
        (img127.data ((0 * img127.width + (0 * 8 + 0)) * 3 + 2)).val > 127) :=
  ⟨by decide, screen4_bit img127 0 0 0 (by decide)⟩

/-- C10: the fixed-point luma of an 8-bit pixel always lies in [0,255],
so the uint8_t store in main neither truncates it nor changes the
comparison against the 127 threshold. -/
theorem rgb_to_gray_range (r g b : Nat) (hr : r ≤ 255) (hg : g ≤ 255)
    (hb : b ≤ 255) :
    rgb_to_gray r g b ≤ 255 ∧
    rgb_to_gray r g b % 256 = rgb_to_gray r g b ∧
    (rgb_to_gray r g b % 256 > 127 ↔ rgb_to_gray r g b > 127) := by
  have h := rgb_to_gray_le r g b hr hg hb
  refine ⟨h, Nat.mod_eq_of_lt (by omega), ?_⟩
  rw [Nat.mod_eq_of_lt (by omega)]

/-- Witness for C10 at the white pixel (255,255,255), whose luma is the
maximal 255. -/
theorem rgb_to_gray_range_witness :
    (255 ≤ 255) ∧
    (rgb_to_gray 255 255 255 ≤ 255 ∧
    rgb_to_gray 255 255 255 % 256 = rgb_to_gray 255 255 255 ∧
    (rgb_to_gray 255 255 255 % 256 > 127 ↔ rgb_to_gray 255 255 255 > 127)) :=
  ⟨by decide, rgb_to_gray_range 255 255 255 (by decide) (by decide) (by decide)⟩

/-! ### Partial trailing groups read past the end of the row -/

/-- C5 (failing input): for img10x2 (width 10, merged width 5, palette
color,,1) the claim would make the final byte of row 0 equal 0b00000000
(slot 0 is green, index 0; slots 1..3 are missing and should be zero
bits).  The inner loop of main is not guarded, so slots 1..3 are packed
from reads past the end of row 0 — the pixels of row 1, pure red, index
3 — giving 0b00111111 = 63.  All reads for this byte stay inside the
10×2×3-byte buffer, so the C behavior is well defined here; on the last
row the same loop reads past the allocated buffer.  The byte count per
row does equal ceil(5/4) = 2. -/
theorem screen3_partial_group_bug :
    stride3 img10x2.width = 2 ∧
    screen3Byte (p6palette 0) img10x2 0 1 = 63 ∧
    (screen3Byte (p6palette 0) img10x2 0 1 >>> 4) &&& 3 = 3 ∧
    (screen3Byte (p6palette 0) img10x2 0 1 >>> 2) &&& 3 = 3 ∧
    screen3Byte (p6palette 0) img10x2 0 1 &&& 3 = 3 ∧
    screen3Byte (p6palette 0) img10x2 0 1 ≠ 0 := by decide

/-- C6 (failing input): for img4x2 (width 4, row 0 black, row 1 white)
the claim would make the single byte of row 0 equal 0 (pixels 0..3 are
black; bit positions 3..0 are unused and should stay 0).  The inner loop
is not guarded, so bits 3..0 are packed from reads past the end of row 0
— the pixels of row 1, pure white, luma 255 — giving 0b00001111 = 15.
All reads for this byte stay inside the 4×2×3-byte buffer, so the C
behavior is well defined here; on the last row the same loop reads past
the allocated buffer.  The byte count per row does equal ceil(4/8) = 1. -/
theorem screen4_partial_group_bug :
    stride4 img4x2.width = 1 ∧
    screen4Byte img4x2 0 0 = 15 ∧
    (screen4Byte img4x2 0 0).testBit 0 = true ∧
    screen4Byte img4x2 0 0 ≠ 0 := by decide

/-! ### Output size and driver checks -/

/-- C7: for every accepted configuration (1 ≤ W ≤ 256, 1 ≤ H ≤ 192) the
mode-3 output is stride3 W × H bytes and mode-4 output stride4 W × H
bytes, where stride3 W = ((W/2)+3)/4 is exactly ceil((W/2)/4) (least s
with W/2 ≤ 4s) and stride4 W = (W+7)/8 is exactly ceil(W/8); for the
default 256-wide working size the mode-3 stride is 32 bytes/row and a
192-row image is 6144 bytes, with no header. -/
theorem output_size (pal : p6palette_t) (img : Image)
    (hw1 : 1 ≤ img.width) (hw2 : img.width ≤ 256)
    (hh1 : 1 ≤ img.height) (hh2 : img.height ≤ 192) :
    (screen3Out pal img).length = stride3 img.width * img.height ∧
    (screen4Out img).length = stride4 img.width * img.height ∧
    img.width / 2 ≤ 4 * stride3 img.width ∧
    (∀ s, img.width / 2 ≤ 4 * s → stride3 img.width ≤ s) ∧
    img.width ≤ 8 * stride4 img.width ∧
    (∀ s, img.width ≤ 8 * s → stride4 img.width ≤ s) ∧
    stride3 256 = 32 ∧ stride3 256 * 192 = 6144 := by
  refine ⟨?_, ?_, ?_, ?_, ?_, ?_, by decide, by decide⟩
  · unfold screen3Out
    rw [List.length_flatten, List.map_map]
    have e : ∀ y ∈ List.range img.height,
        (List.length ∘ screen3Row pal img) y = stride3 img.width := by
      intro y hy
      simp [screen3Row]
    rw [List.map_congr_left e, List.map_const']
    simp [List.sum_replicate, smul_eq_mul, Nat.mul_comm]
  · unfold screen4Out
    rw [List.length_flatten, List.map_map]
    have e : ∀ y ∈ List.range img.height,
        (List.length ∘ screen4Row img) y = stride4 img.width := by
      intro y hy
      simp [screen4Row]
    rw [List.map_congr_left e, List.map_const']
    simp [List.sum_replicate, smul_eq_mul, Nat.mul_comm]
  · unfold stride3
    omega
  · intro s hs
    unfold stride3
    omega
  · unfold stride4
    omega
  · intro s hs
    unfold stride4
    omega

/-- Witness for C7 at the 256×192 halfGreenRed image and palette A. -/
theorem output_size_witness :
    (1 ≤ halfGreenRed.width ∧ halfGreenRed.width ≤ 256 ∧
     1 ≤ halfGreenRed.height ∧ halfGreenRed.height ≤ 192) ∧
    ((screen3Out (p6palette 0) halfGreenRed).length =
       stride3 halfGreenRed.width * halfGreenRed.height ∧
    (screen4Out halfGreenRed).length =
       stride4 halfGreenRed.width * halfGreenRed.height ∧
    halfGreenRed.width / 2 ≤ 4 * stride3 halfGreenRed.width ∧
    (∀ s, halfGreenRed.width / 2 ≤ 4 * s → stride3 halfGreenRed.width ≤ s) ∧
    halfGreenRed.width ≤ 8 * stride4 halfGreenRed.width ∧
    (∀ s, halfGreenRed.width ≤ 8 * s → stride4 halfGreenRed.width ≤ s) ∧
    stride3 256 = 32 ∧ stride3 256 * 192 = 6144) :=
  ⟨⟨by decide, by decide, by decide, by decide⟩,
    output_size (p6palette 0) halfGreenRed (by decide) (by decide)
      (by decide) (by decide)⟩

/-- C8: whenever the decoded image size differs from the configured
working size, the driver reports a dimension error carrying the expected
and actual width/height and produces no output bytes (in the source the
check even precedes opening the output file, so the destination is never
created). -/
theorem dimension_mismatch_error (mode color_type expW expH : Nat)
    (img : Image) (h : img.width ≠ expW ∨ img.height ≠ expH) :
    convert mode color_type expW expH img =
      Except.error (expW, expH, img.width, img.height) ∧
    ∀ out, convert mode color_type expW expH img ≠ Except.ok out := by
  unfold convert
  rw [if_pos h]
  exact ⟨rfl, fun out h2 => Except.noConfusion h2⟩

/-- Witness for C8: a 100×100 image against the default 256×192 working
size, mode 3, palette 1. -/
theorem dimension_mismatch_error_witness :
    (img100.width ≠ 256 ∨ img100.height ≠ 192) ∧
    (convert 3 1 256 192 img100 =
      Except.error (256, 192, img100.width, img100.height) ∧
    ∀ out, convert 3 1 256 192 img100 ≠ Except.ok out) :=
  ⟨by decide, dimension_mismatch_error 3 1 256 192 img100 (by decide)⟩

/-! ### End-to-end: half green, half red, palette A, mode 3 -/

/-- Channel c of pixel (x, y) of halfGreenRed. -/
lemma halfGreenRed_data (y x c : Nat) (hx : x < 256) (hc : c < 3) :
    (halfGreenRed.data ((y * 256 + x) * 3 + c)).val =
      if x < 128 then (if c = 1 then 255 else 0)
      else (if c = 0 then 255 else 0) := by
  show (if (((y * 256 + x) * 3 + c) / 3) % 256 < 128
      then (if ((y * 256 + x) * 3 + c) % 3 = 1 then (255 : Fin 256) else 0)
      else (if ((y * 256 + x) * 3 + c) % 3 = 0 then (255 : Fin 256) else 0)).val =
    if x < 128 then (if c = 1 then 255 else 0)
    else (if c = 0 then 255 else 0)
  have h1 : (((y * 256 + x) * 3 + c) / 3) % 256 = x := by omega
  have h2 : ((y * 256 + x) * 3 + c) % 3 = c := by omega
  rw [h1, h2]
  split_ifs <;> rfl

/-- Every merged pixel of halfGreenRed is pure green on the left half
and pure red on the right half (the green/red boundary at source column
128 is aligned with the pixel pairs). -/
lemma halfGreenRed_merged (y j : Nat) (hj : j < 128) :
    mergedPixel halfGreenRed y j =
      if j < 64 then ⟨0, 255, 0⟩ else ⟨255, 0, 0⟩ := by
  have e0 := halfGreenRed_data y (2 * j) 0 (by omega) (by omega)
  have e1 := halfGreenRed_data y (2 * j) 1 (by omega) (by omega)
  have e2 := halfGreenRed_data y (2 * j) 2 (by omega) (by omega)
  have f0 := halfGreenRed_data y (2 * j + 1) 0 (by omega) (by omega)
  have f1 := halfGreenRed_data y (2 * j + 1) 1 (by omega) (by omega)
  have f2 := halfGreenRed_data y (2 * j + 1) 2 (by omega) (by omega)
  simp only [Nat.add_zero] at e0 f0
  unfold mergedPixel
  rw [show halfGreenRed.width = 256 from rfl, show j * 2 = 2 * j from Nat.mul_comm j 2]
  rw [show y * 256 + 2 * j + 1 = y * 256 + (2 * j + 1) from by omega]
  rw [e0, e1, e2, f0, f1, f2]
  norm_num
  split_ifs <;> first | rfl | (exfalso; omega)

/-- Each byte of each row of the mode-3 encoding of halfGreenRed with
palette A: 0b00000000 on the left half, 0b11111111 on the right half. -/
lemma halfGreenRed_byte (y xb : Nat) (hxb : xb < 32) :
    screen3Byte (p6palette 0) halfGreenRed y xb =
      if xb < 16 then 0 else 255 := by
  have m0 := halfGreenRed_merged y (xb * 4) (by omega)
  have m1 := halfGreenRed_merged y (xb * 4 + 1) (by omega)
  have m2 := halfGreenRed_merged y (xb * 4 + 2) (by omega)
  have m3 := halfGreenRed_merged y (xb * 4 + 3) (by omega)
  rw [screen3Byte_eq_sum]
  unfold slotColor
  rw [m0, m1, m2, m3]
  rcases Nat.lt_or_ge xb 16 with h | h
  · rw [if_pos (show xb * 4 < 64 by omega), if_pos (show xb * 4 + 1 < 64 by omega),
      if_pos (show xb * 4 + 2 < 64 by omega), if_pos (show xb * 4 + 3 < 64 by omega),
      if_pos h]
    decide
  · rw [if_neg (show ¬ xb * 4 < 64 by omega), if_neg (show ¬ xb * 4 + 1 < 64 by omega),
      if_neg (show ¬ xb * 4 + 2 < 64 by omega), if_neg (show ¬ xb * 4 + 3 < 64 by omega),
      if_neg (show ¬ xb < 16 by omega)]
    decide

/-- C9: the complete mode-3 output for the 256×192 image whose left
half is pure green and right half pure red, with palette A, is 192 rows
of 16 bytes 0b00000000 followed by 16 bytes 0b11111111. -/
theorem screen3_halfGreenRed :
    screen3Out (p6palette 0) halfGreenRed =
      List.flatten (List.replicate 192
        (List.replicate 16 0 ++ List.replicate 16 255)) := by
  have hrow : ∀ y ∈ List.range 192,
      screen3Row (p6palette 0) halfGreenRed y =
        List.replicate 16 0 ++ List.replicate 16 (255 : Nat) := by
    intro y hy
    unfold screen3Row
    rw [show stride3 halfGreenRed.width = 32 from rfl]
    rw [List.map_congr_left
      (fun xb hxb => halfGreenRed_byte y xb (by simpa using hxb))]
    decide
  unfold screen3Out
  rw [show halfGreenRed.height = 192 from rfl]
  rw [List.map_congr_left hrow, List.map_const']
  rw [List.length_range]
